import Mathlib

/-!
Shallow embedding of the Rosedale synthesizer engine (src/src/main.rs).

Real-number (`f64`) arithmetic is modelled exactly over `ℚ`.  Two library
functions whose exact values are irrational over `ℚ` are abstracted as
parameters, never fixed to particular values:
  * `π` (used only inside `calculate_alpha`) is passed as a parameter `pi`;
  * `f64::tanh` (used only for the final soft clip in `process_buffer`) is
    passed as a parameter `tanhQ : ℚ → ℚ`;
  * the equal-tempered frequency table `440 * 2^((n - 69)/12)` computed in
    `RosedaleVoiceState::new` is passed as a parameter `freqOf : ℕ → ℚ`.
Everything else is translated directly from the source.
-/

/-- Source `struct RosedaleParams` (src/src/main.rs lines 15-33). -/
structure RosedaleParams where
  max_pressure : ℚ
  refill_speed : ℚ
  valve_flow_rate : ℚ
  pulse_duty_cycle : ℚ
  pitch_modulation_depth : ℚ
  tuning_multiplier : ℚ
  filter_cutoff : ℚ
  spring_speed : ℚ
deriving DecidableEq

/-- Source `impl Default for RosedaleParams` (lines 35-50). -/
def RosedaleParams.default : RosedaleParams where
  max_pressure := 1.0
  refill_speed := 10.0
  valve_flow_rate := 0.6
  pulse_duty_cycle := 0.3
  pitch_modulation_depth := 0.06
  tuning_multiplier := 1.0
  filter_cutoff := 1500.0
  spring_speed := 25.0

/-- Source `struct PlenumPressure` (lines 52-54). -/
structure PlenumPressure where
  pressure : ℚ
deriving DecidableEq

/-- Source `struct RosedaleVoiceState` (lines 56-64). -/
structure RosedaleVoiceState where
  phase : ℚ
  sample_history : ℚ
  valve_aperature : ℚ
  opening : Bool
  attack : ℚ
  freq : ℚ
deriving DecidableEq

/-- Source `RosedaleVoiceState::new` (lines 66-79).  The natural frequency
`440.0 * 2.0_f64.powf((note_index - 69.0)/12.0)` is irrational over `ℚ`,
so the frequency table is supplied as the parameter `freqOf`. -/
def RosedaleVoiceState.new (freqOf : ℕ → ℚ) (note_index : ℕ) : RosedaleVoiceState where
  phase := 0.00
  sample_history := 0.0
  valve_aperature := 0.0
  opening := false
  attack := 0.0
  freq := freqOf note_index

/-- Source `calc_dt` (lines 81-83). -/
def calc_dt (sample_rate : ℚ) : ℚ :=
  1.0 / sample_rate

/-- Source `calculate_alpha` (lines 85-90); `PI` is the parameter `pi`. -/
def calculate_alpha (pi : ℚ) (cutoff_freq : ℚ) (dt : ℚ) : ℚ :=
  let omega_dt := 2.0 * pi * cutoff_freq * dt
  omega_dt / (1.0 + omega_dt)

/-- Source `const SLOW_OPEN: f64 = 0.08` (line 102). -/
def SLOW_OPEN : ℚ := 0.08

/-- Source `const FAST_OPEN: f64 = 0.01` (line 103). -/
def FAST_OPEN : ℚ := 0.01

/-- Source `update_aperature` (lines 93-114); the `&mut` state update is modelled
by returning the new voice state.  `f64::clamp(0.0, 1.0)` is
`min 1 (max 0 _)`. -/
def update_aperature (voice_state : RosedaleVoiceState) (pressure : PlenumPressure)
    (params : RosedaleParams) (dt : ℚ) : RosedaleVoiceState :=
  let aperature_t := voice_state.valve_aperature
  let aperature_t :=
    if voice_state.opening then
      let valve_speed : ℚ := 1.0 / (SLOW_OPEN - (voice_state.attack * (SLOW_OPEN - FAST_OPEN)))
      aperature_t + valve_speed * dt
    else
      let valve_speed := params.spring_speed / (1.0 + (0.875 * pressure.pressure))
      aperature_t - valve_speed * dt
  { voice_state with valve_aperature := min 1.0 (max 0.0 aperature_t) }

/-- Source `update_pressure` (lines 116-127). -/
def update_pressure (pressure : PlenumPressure) (params : RosedaleParams)
    (aperature_area : ℚ) (dt : ℚ) : PlenumPressure :=
  let air_in := params.refill_speed * (params.max_pressure - pressure.pressure)
  let air_out := params.valve_flow_rate * aperature_area * pressure.pressure
  { pressure := pressure.pressure + (air_in - air_out) * dt }

/-- Source `calc_pitch_sag` (lines 129-132). -/
def calc_pitch_sag (pressure : PlenumPressure) (params : RosedaleParams)
    (midi_freq : ℚ) : ℚ :=
  let sag := 1.0 - (params.pitch_modulation_depth * (params.max_pressure - pressure.pressure))
  midi_freq * sag

/-- Source `synthesize_pulse_wave` (lines 134-140). -/
def synthesize_pulse_wave (voice_state : RosedaleVoiceState)
    (params : RosedaleParams) : ℚ :=
  if voice_state.phase > params.pulse_duty_cycle then 1.0 else -1.0

/-- Source `apply_chassis_filter` (lines 142-150); returns the updated voice state
together with the output sample. -/
def apply_chassis_filter (voice_state : RosedaleVoiceState) (alpha : ℚ)
    (sample : ℚ) : RosedaleVoiceState × ℚ :=
  let prev_sample := voice_state.sample_history
  let next_sample := prev_sample + alpha * (sample - prev_sample)
  ({ voice_state with sample_history := next_sample }, next_sample)

/-- The note events the engine reacts to (`wmidi::MidiMessage`, restricted
to the arms `handle_midi` matches on; a `wmidi` note and velocity are 7-bit,
hence `ℕ` values below 128). -/
inductive MidiMessage where
  | noteOn (note : ℕ) (vel : ℕ)
  | noteOff (note : ℕ)
  | other
deriving DecidableEq

/-- Source `struct RosedaleEngine` (lines 152-158); the `Vec` of voices is a list. -/
structure RosedaleEngine where
  params : RosedaleParams
  pressure : PlenumPressure
  voices : List RosedaleVoiceState
  sample_rate : ℚ
  active_indices : List ℕ

/-- In-place update of one list entry, as Rust `self.voices[idx].f = v`
writes through an index (out-of-range leaves the list unchanged; the
source's indexing is proved in-bounds separately). -/
def listModify (l : List RosedaleVoiceState) (i : ℕ)
    (f : RosedaleVoiceState → RosedaleVoiceState) : List RosedaleVoiceState :=
  match l.get? i with
  | some a => l.set i (f a)
  | none => l

/-- Source `RosedaleEngine::new` (lines 161-173). -/
def RosedaleEngine.new (freqOf : ℕ → ℚ) (sample_rate : ℚ) : RosedaleEngine where
  params := RosedaleParams.default
  pressure := { pressure := 0.0 }
  voices := (List.range 128).map (RosedaleVoiceState.new freqOf)
  sample_rate := sample_rate
  active_indices := []

/-- Source `RosedaleEngine::handle_midi` (lines 175-198).  `u8::from(vel) as f64 / 127.0`
becomes `(vel : ℚ) / 127`. -/
def RosedaleEngine.handle_midi (e : RosedaleEngine) (msg : MidiMessage) : RosedaleEngine :=
  match msg with
  | .noteOn note vel =>
      let idx := note
      let v : ℚ := (vel : ℚ) / 127.0
      if v > 0.0 then
        let voices := listModify e.voices idx (fun vs => { vs with opening := true, attack := v })
        let active_indices :=
          if idx ∈ e.active_indices then e.active_indices else e.active_indices ++ [idx]
        { e with voices := voices, active_indices := active_indices }
      else
        { e with voices := listModify e.voices idx (fun vs => { vs with opening := false }) }
  | .noteOff note =>
      let idx := note
      { e with voices := listModify e.voices idx (fun vs => { vs with opening := false }) }
  | .other => e

/-- The phase advance `voice.phase += freq * dt` and wrap step of
`process_buffer` (lines 222-225): subtract 1.0 when the phase exceeds 1.0. -/
def wrapPhase (phase inc : ℚ) : ℚ :=
  let p := phase + inc
  if p > 1.0 then p - 1.0 else p

/-- The body of the per-voice loop in `process_buffer` (lines 212-231):
aperture update, early-out below the 0.0001 threshold, pitch sag, phase
advance and wrap, pulse synthesis, chassis filter, and this voice's
contribution `filtered * valve_aperature * pressure` to the mono mix. -/
def voiceFrame (params : RosedaleParams) (pressure : PlenumPressure)
    (alpha dt : ℚ) (voice0 : RosedaleVoiceState) : RosedaleVoiceState × ℚ :=
  let voice := update_aperature voice0 pressure params dt
  if voice.valve_aperature ≤ 0.0001 then
    (voice, 0)
  else
    let freq := calc_pitch_sag pressure params voice.freq
    let voice := { voice with phase := wrapPhase voice.phase (freq * dt) }
    let raw := synthesize_pulse_wave voice params
    let fr := apply_chassis_filter voice alpha raw
    (fr.1, fr.2 * fr.1.valve_aperature * pressure.pressure)

/-- The total-aperture accumulation loop opening each frame of
`process_buffer` (lines 204-207): sum of the apertures of the active
voices, read from the state left by the previous sample tick. -/
def totalAperture (e : RosedaleEngine) : ℚ :=
  e.active_indices.foldl
    (fun acc i =>
      match e.voices.get? i with
      | some v => acc + v.valve_aperature
      | none => acc) 0.0

/-- One iteration of the per-voice loop of `process_buffer`, threading the
evolving voice list together with the mono-mix accumulator. -/
def voiceFold (params : RosedaleParams) (pressure : PlenumPressure) (alpha dt : ℚ)
    (acc : List RosedaleVoiceState × ℚ) (i : ℕ) : List RosedaleVoiceState × ℚ :=
  match acc.1.get? i with
  | some v =>
    let r := voiceFrame params pressure alpha dt v
    (acc.1.set i r.1, acc.2 + r.2)
  | none => acc

/-- One frame of `process_buffer` (lines 203-236): sum apertures over the
active indices, update the pressure once, then run every active voice and
accumulate the mono mix (before the `tanh` soft clip). -/
def frameStep (alpha dt : ℚ) (e : RosedaleEngine) : RosedaleEngine × ℚ :=
  let pressure := update_pressure e.pressure e.params (totalAperture e) dt
  let vm := e.active_indices.foldl (voiceFold e.params pressure alpha dt) (e.voices, 0.0)
  ({ e with pressure := pressure, voices := vm.1 }, vm.2)

/-- The frame loop of `process_buffer`: `nframes` chunks, each producing one
mono value `tanhQ mono_mix` broadcast to every channel of its frame. -/
def runFrames (tanhQ : ℚ → ℚ) (alpha dt : ℚ) :
    ℕ → RosedaleEngine → RosedaleEngine × List ℚ
  | 0, e => (e, [])
  | n + 1, e =>
    let st := frameStep alpha dt e
    let rest := runFrames tanhQ alpha dt n st.1
    (rest.1, tanhQ st.2 :: rest.2)

/-- The `retain` predicate compacting the active-index set (lines 239-242). -/
def retainPred (voices : List RosedaleVoiceState) (i : ℕ) : Bool :=
  match voices.get? i with
  | some v => v.opening || decide ((0.0001 : ℚ) < v.valve_aperature)
  | none => false

/-- Source `RosedaleEngine::process_buffer` (lines 200-243) for a buffer of
`nframes` frames: the per-frame loop followed by the end-of-buffer
compaction of the active-index set.  Returns the final engine state and the
list of mono sample values (one per frame; the source writes that value
into every channel of the frame). -/
def RosedaleEngine.process_buffer (tanhQ : ℚ → ℚ) (pi : ℚ)
    (e : RosedaleEngine) (nframes : ℕ) : RosedaleEngine × List ℚ :=
  let dt := 1.0 / e.sample_rate
  let alpha := calculate_alpha pi e.params.filter_cutoff dt
  let r := runFrames tanhQ alpha dt nframes e
  let e1 := r.1
  ({ e1 with active_indices := e1.active_indices.filter (retainPred e1.voices) }, r.2)

/-- The engine state reached after the frame loop of `process_buffer`, just
before the end-of-buffer compaction of the active-index set. -/
def midEngine (tanhQ : ℚ → ℚ) (pi : ℚ) (e : RosedaleEngine) (n : ℕ) : RosedaleEngine :=
  (runFrames tanhQ (calculate_alpha pi e.params.filter_cutoff (1.0 / e.sample_rate))
    (1.0 / e.sample_rate) n e).1

/-- Replace only the (unused) `tuning_multiplier` parameter of an engine. -/
def setTuning (e : RosedaleEngine) (t : ℚ) : RosedaleEngine :=
  { e with params := { e.params with tuning_multiplier := t } }

/-- A concrete voice record used by witness instantiations. -/
def testVoice : RosedaleVoiceState :=
  { phase := 0, sample_history := 0, valve_aperature := 0, opening := true,
    attack := 1, freq := 440 }

/-- A concrete engine used by witness instantiations. -/
def testEngine : RosedaleEngine :=
  { params := RosedaleParams.default, pressure := { pressure := 0 },
    voices := [testVoice], sample_rate := 48000, active_indices := [0] }

/-! ## Claims -/

/-- C1 fails on the code: at phase 0 with the default duty cycle 0.3 (so
phase ≤ dutyCycle and the duty cycle lies in [0,1]) the pulse oscillator
returns −1, not +1 as the claim states. -/
theorem C1_counterexample :
    ({ phase := 0, sample_history := 0, valve_aperature := 0, opening := false,
       attack := 0, freq := 440 } : RosedaleVoiceState).phase
        ≤ RosedaleParams.default.pulse_duty_cycle ∧
    synthesize_pulse_wave
      { phase := 0, sample_history := 0, valve_aperature := 0, opening := false,
        attack := 0, freq := 440 } RosedaleParams.default = -1 ∧
    synthesize_pulse_wave
      { phase := 0, sample_history := 0, valve_aperature := 0, opening := false,
        attack := 0, freq := 440 } RosedaleParams.default ≠ 1 := by
  refine ⟨?_, ?_, ?_⟩ <;> norm_num [synthesize_pulse_wave, RosedaleParams.default]

/-- C1 (amended): for every phase value and duty cycle the pulse oscillator
returns −1 when phase ≤ dutyCycle and +1 otherwise — the opposite polarity
of the claim (the duty cycle is the fraction of the period held at the low
rail). -/
theorem C1_pulse_wave_polarity (vs : RosedaleVoiceState) (params : RosedaleParams) :
    synthesize_pulse_wave vs params =
      if vs.phase ≤ params.pulse_duty_cycle then -1.0 else 1.0 := by
  unfold synthesize_pulse_wave
  split_ifs <;> first | rfl | linarith

/-- C4: `update_aperature` opens the valve at rate
`1/(0.08 − attack·(0.08 − 0.01))` when the voice is opening, closes it at
rate `springSpeed/(1 + 0.875·pressure)` otherwise, and the result is always
clamped into [0,1], for every input state, pressure, parameters and dt. -/
theorem C4_update_aperature_rates_and_clamp (vs : RosedaleVoiceState)
    (pr : PlenumPressure) (params : RosedaleParams) (dt : ℚ) :
    (update_aperature vs pr params dt).valve_aperature =
      (if vs.opening then
        min 1.0 (max 0.0
          (vs.valve_aperature + (1.0 / ((0.08 : ℚ) - (vs.attack * ((0.08 : ℚ) - 0.01)))) * dt))
      else
        min 1.0 (max 0.0
          (vs.valve_aperature - (params.spring_speed / (1.0 + (0.875 * pr.pressure))) * dt))) ∧
    0 ≤ (update_aperature vs pr params dt).valve_aperature ∧
    (update_aperature vs pr params dt).valve_aperature ≤ 1 := by
  unfold update_aperature SLOW_OPEN FAST_OPEN
  refine ⟨by split_ifs <;> rfl, ?_, ?_⟩
  · split_ifs <;>
      · simp only [le_min_iff, le_max_iff]
        exact ⟨by norm_num, Or.inl (by norm_num)⟩
  · split_ifs <;>
      · simp only [min_le_iff]
        exact Or.inl (by norm_num)

/-- C5 fails on the code: the wrap step subtracts 1.0 only when the phase
strictly exceeds 1.0, so starting from phase 0 two advances of 1/2 land the
phase exactly on 1.0, which is outside [0,1). -/
theorem C5_counterexample :
    wrapPhase (wrapPhase 0 (1/2)) (1/2) = 1 ∧
    ¬ wrapPhase (wrapPhase 0 (1/2)) (1/2) < 1 := by
  norm_num [wrapPhase]

/-- C5 (amended): the per-sample phase advance followed by the wrap step
keeps the phase in the closed interval [0,1] (the phase can land exactly on
1.0), provided the phase starts in [0,1] and the increment `pitchedFreq·dt`
lies in [0,1]. -/
theorem C5_phase_wrap_closed_unit (phase inc : ℚ) (h0 : 0 ≤ phase) (h1 : phase ≤ 1)
    (hi0 : 0 ≤ inc) (hi1 : inc ≤ 1) :
    0 ≤ wrapPhase phase inc ∧ wrapPhase phase inc ≤ 1 := by
  simp only [wrapPhase]
  split_ifs with h <;> constructor <;> linarith

/-- Witness for C5 at phase 1/2, increment 3/4 (the wrap fires). -/
theorem C5_phase_wrap_closed_unit_witness :
    0 ≤ wrapPhase (1/2) (3/4) ∧ wrapPhase (1/2) (3/4) ≤ 1 :=
  C5_phase_wrap_closed_unit (1/2) (3/4) (by norm_num) (by norm_num)
    (by norm_num) (by norm_num)

/-- C2 fails as stated: the default parameters satisfy every listed validity
constraint, yet with sample rate 1 (dt = 1) a single pressure update from
pressure 0 with no active voices overshoots the target static pressure
(refillSpeed·dt = 10 > 1). -/
theorem C2_counterexample :
    0 ≤ RosedaleParams.default.refill_speed ∧
    0 ≤ RosedaleParams.default.valve_flow_rate ∧
    0 ≤ RosedaleParams.default.spring_speed ∧
    0 ≤ RosedaleParams.default.pulse_duty_cycle ∧
    RosedaleParams.default.pulse_duty_cycle ≤ 1 ∧
    0 < RosedaleParams.default.filter_cutoff ∧
    (0 : ℚ) < calc_dt 1 ∧
    (0 : ℚ) ≤ 0 ∧ (0 : ℚ) ≤ RosedaleParams.default.max_pressure ∧
    ¬ (update_pressure { pressure := 0 } RosedaleParams.default 0 (calc_dt 1)).pressure
        ≤ RosedaleParams.default.max_pressure := by
  norm_num [RosedaleParams.default, update_pressure, calc_dt]

/-- C2 (amended): with no outflow (total aperture 0), a pressure in
[0, targetStaticPressure] stays in [0, targetStaticPressure] after every
`update_pressure` step, provided additionally `refillSpeed·dt ≤ 1` (the
explicit-Euler step must not overshoot; the claim as stated allows
`refillSpeed·dt > 1`, which overshoots). -/
theorem C2_pressure_invariant_no_voices (params : RosedaleParams) (p dt : ℚ)
    (hr : 0 ≤ params.refill_speed) (hdt : 0 < dt)
    (hrdt : params.refill_speed * dt ≤ 1)
    (hp0 : 0 ≤ p) (hp1 : p ≤ params.max_pressure) :
    0 ≤ (update_pressure { pressure := p } params 0 dt).pressure ∧
    (update_pressure { pressure := p } params 0 dt).pressure ≤ params.max_pressure := by
  unfold update_pressure
  dsimp only
  constructor
  · nlinarith [mul_nonneg (mul_nonneg hr (sub_nonneg.2 hp1)) hdt.le]
  · nlinarith [mul_nonneg (sub_nonneg.2 hp1) (sub_nonneg.2 hrdt)]

/-- Witness for C2 with the default parameters at 48 kHz and pressure 0. -/
theorem C2_pressure_invariant_no_voices_witness :
    0 ≤ (update_pressure { pressure := 0 } RosedaleParams.default 0 (1/48000)).pressure ∧
    (update_pressure { pressure := 0 } RosedaleParams.default 0 (1/48000)).pressure
      ≤ RosedaleParams.default.max_pressure :=
  C2_pressure_invariant_no_voices RosedaleParams.default 0 (1/48000)
    (by norm_num [RosedaleParams.default]) (by norm_num)
    (by norm_num [RosedaleParams.default]) (by norm_num)
    (by norm_num [RosedaleParams.default])

/-- C10: at construction the plenum pressure is 0 (not the target static
pressure), the active-index set is empty, and each of the 128 voices starts
with phase 0, filter history 0, aperture 0, opening false and attack 0. -/
theorem C10_engine_new_initial_state (freqOf : ℕ → ℚ) (sr : ℚ) (i : ℕ) (hi : i < 128) :
    (RosedaleEngine.new freqOf sr).pressure.pressure = 0 ∧
    (RosedaleEngine.new freqOf sr).active_indices = [] ∧
    (RosedaleEngine.new freqOf sr).voices.length = 128 ∧
    (RosedaleEngine.new freqOf sr).voices.get? i =
      some { phase := 0, sample_history := 0, valve_aperature := 0,
             opening := false, attack := 0, freq := freqOf i } := by
  refine ⟨by norm_num [RosedaleEngine.new], rfl, by simp [RosedaleEngine.new], ?_⟩
  simp only [RosedaleEngine.new, List.get?_eq_getElem?, List.getElem?_map,
    List.getElem?_range hi, Option.map_some']
  norm_num [RosedaleVoiceState.new]

/-- Witness for C10 at voice index 69 of a concretely constructed engine. -/
theorem C10_engine_new_initial_state_witness :
    (RosedaleEngine.new (fun _ => (440 : ℚ)) 48000).pressure.pressure = 0 ∧
    (RosedaleEngine.new (fun _ => (440 : ℚ)) 48000).active_indices = [] ∧
    (RosedaleEngine.new (fun _ => (440 : ℚ)) 48000).voices.length = 128 ∧
    (RosedaleEngine.new (fun _ => (440 : ℚ)) 48000).voices.get? 69 =
      some { phase := 0, sample_history := 0, valve_aperature := 0,
             opening := false, attack := 0, freq := 440 } :=
  C10_engine_new_initial_state (fun _ => (440 : ℚ)) 48000 69 (by norm_num)

/-! ## Helper lemmas -/

/-- Writing through index `k` leaves every other entry unchanged. -/
theorem listModify_get?_ne (l : List RosedaleVoiceState) (k j : ℕ)
    (f : RosedaleVoiceState → RosedaleVoiceState) (h : j ≠ k) :
    (listModify l k f).get? j = l.get? j := by
  unfold listModify
  cases hk : l.get? k with
  | none => rfl
  | some a => exact List.get?_set_ne (f a) l (Ne.symm h)

/-- Writing through index `k` applies `f` to the entry at `k`. -/
theorem listModify_get?_eq (l : List RosedaleVoiceState) (k : ℕ)
    (f : RosedaleVoiceState → RosedaleVoiceState) :
    (listModify l k f).get? k = (l.get? k).map f := by
  unfold listModify
  cases hk : l.get? k with
  | none => exact hk
  | some a => rw [List.get?_set_eq, hk]; rfl

/-- The frame loop never touches the active-index set. -/
theorem runFrames_active (tanhQ : ℚ → ℚ) (alpha dt : ℚ) (n : ℕ) (e : RosedaleEngine) :
    (runFrames tanhQ alpha dt n e).1.active_indices = e.active_indices := by
  induction n generalizing e with
  | zero => rfl
  | succ n ih =>
    simp only [runFrames]
    rw [ih]
    rfl

/-- The active-index set is unchanged between buffer start and compaction. -/
theorem midEngine_active (tanhQ : ℚ → ℚ) (pi : ℚ) (e : RosedaleEngine) (n : ℕ) :
    (midEngine tanhQ pi e n).active_indices = e.active_indices :=
  runFrames_active tanhQ _ _ n e

/-- A note-on for a key already in the active-index set leaves it unchanged. -/
theorem handle_midi_mem_noop (e : RosedaleEngine) (k vel : ℕ)
    (hk : k ∈ e.active_indices) :
    (e.handle_midi (.noteOn k vel)).active_indices = e.active_indices := by
  simp only [RosedaleEngine.handle_midi]
  split_ifs with hv hmem <;> first | rfl | exact absurd hk hmem

/-- Every event handler call preserves no-duplication of the active set. -/
theorem handle_midi_nodup (e : RosedaleEngine) (m : MidiMessage)
    (h : e.active_indices.Nodup) :
    (e.handle_midi m).active_indices.Nodup := by
  cases m with
  | noteOn note vel =>
    simp only [RosedaleEngine.handle_midi]
    split_ifs with hv hmem
    · exact h
    · refine h.append (List.nodup_singleton _) ?_
      intro a ha hka
      rw [List.mem_singleton] at hka
      exact hmem (hka ▸ ha)
    · exact h
  | noteOff note => exact h
  | other => exact h

/-- Folding any event sequence preserves no-duplication of the active set. -/
theorem foldl_handle_midi_nodup (es : List MidiMessage) (e : RosedaleEngine)
    (h : e.active_indices.Nodup) :
    (es.foldl RosedaleEngine.handle_midi e).active_indices.Nodup := by
  induction es generalizing e with
  | nil => exact h
  | cons m es ih => exact ih _ (handle_midi_nodup e m h)

/-! ## Claims (continued) -/

/-- C3: in every frame of the render loop the pressure is updated exactly
once, before any per-voice update, by
`pressure += dt·(refillSpeed·(targetPressure − pressure) −
flowCoefficient·totalAperture·pressure)`, where `totalAperture` sums the
active voices' apertures as left by the previous sample tick. -/
theorem C3_pressure_update_once_per_frame (alpha dt : ℚ) (e : RosedaleEngine) :
    (frameStep alpha dt e).1.pressure =
      update_pressure e.pressure e.params (totalAperture e) dt ∧
    (frameStep alpha dt e).1.pressure.pressure =
      e.pressure.pressure +
        dt * (e.params.refill_speed * (e.params.max_pressure - e.pressure.pressure)
          - e.params.valve_flow_rate * totalAperture e * e.pressure.pressure) := by
  refine ⟨rfl, ?_⟩
  show (update_pressure e.pressure e.params (totalAperture e) dt).pressure =
    e.pressure.pressure +
      dt * (e.params.refill_speed * (e.params.max_pressure - e.pressure.pressure)
        - e.params.valve_flow_rate * totalAperture e * e.pressure.pressure)
  unfold update_pressure
  dsimp only
  ring

/-- C6: a note-off, or note-on with strength 0, for key `k` only clears
voice `k`'s opening flag — active-set membership, all other voice fields,
the pressure and the parameters are untouched — and the active set shrinks
only in the end-of-buffer compaction, which runs once per buffer and
retains exactly the indices whose voice is opening or has aperture above
0.0001. -/
theorem C6_note_off_and_lazy_compaction (e : RosedaleEngine) (k j : ℕ)
    (hjk : j ≠ k) (tanhQ : ℚ → ℚ) (pi : ℚ) (n : ℕ)
    (vs : List RosedaleVoiceState) (v : RosedaleVoiceState) (i : ℕ)
    (hv : vs.get? i = some v) :
    (e.handle_midi (.noteOff k)).active_indices = e.active_indices ∧
    (e.handle_midi (.noteOn k 0)).active_indices = e.active_indices ∧
    (e.handle_midi (.noteOff k)).voices.get? j = e.voices.get? j ∧
    (e.handle_midi (.noteOn k 0)).voices.get? j = e.voices.get? j ∧
    (e.handle_midi (.noteOff k)).voices.get? k =
      (e.voices.get? k).map (fun w => { w with opening := false }) ∧
    (e.handle_midi (.noteOn k 0)).voices.get? k =
      (e.voices.get? k).map (fun w => { w with opening := false }) ∧
    (e.handle_midi (.noteOff k)).pressure = e.pressure ∧
    (e.handle_midi (.noteOff k)).params = e.params ∧
    (midEngine tanhQ pi e n).active_indices = e.active_indices ∧
    (e.process_buffer tanhQ pi n).1.active_indices =
      e.active_indices.filter (retainPred (midEngine tanhQ pi e n).voices) ∧
    (retainPred vs i = true ↔ (v.opening = true ∨ (0.0001 : ℚ) < v.valve_aperature)) := by
  have hoff : e.handle_midi (.noteOff k) =
      { e with voices := listModify e.voices k (fun w => { w with opening := false }) } := rfl
  have hon0 : e.handle_midi (.noteOn k 0) =
      { e with voices := listModify e.voices k (fun w => { w with opening := false }) } := by
    simp only [RosedaleEngine.handle_midi]
    rw [if_neg (by norm_num)]
  refine ⟨rfl, ?_, ?_, ?_, ?_, ?_, rfl, rfl, midEngine_active tanhQ pi e n, ?_, ?_⟩
  · rw [hon0]
  · exact listModify_get?_ne _ _ _ _ hjk
  · rw [hon0]; exact listModify_get?_ne _ _ _ _ hjk
  · exact listModify_get?_eq _ _ _
  · rw [hon0]; exact listModify_get?_eq _ _ _
  · calc (e.process_buffer tanhQ pi n).1.active_indices
        = (midEngine tanhQ pi e n).active_indices.filter
            (retainPred (midEngine tanhQ pi e n).voices) := rfl
      _ = e.active_indices.filter (retainPred (midEngine tanhQ pi e n).voices) := by
          rw [midEngine_active]
  · rw [List.get?_eq_getElem?] at hv
    simp [retainPred, hv]

/-- Witness for C6 on a concrete engine, keys 1 (event) and 0 (other). -/
theorem C6_note_off_and_lazy_compaction_witness :
    (testEngine.handle_midi (.noteOff 1)).active_indices = testEngine.active_indices ∧
    (testEngine.handle_midi (.noteOn 1 0)).active_indices = testEngine.active_indices ∧
    (testEngine.handle_midi (.noteOff 1)).voices.get? 0 = testEngine.voices.get? 0 ∧
    (testEngine.handle_midi (.noteOn 1 0)).voices.get? 0 = testEngine.voices.get? 0 ∧
    (testEngine.handle_midi (.noteOff 1)).voices.get? 1 =
      (testEngine.voices.get? 1).map (fun w => { w with opening := false }) ∧
    (testEngine.handle_midi (.noteOn 1 0)).voices.get? 1 =
      (testEngine.voices.get? 1).map (fun w => { w with opening := false }) ∧
    (testEngine.handle_midi (.noteOff 1)).pressure = testEngine.pressure ∧
    (testEngine.handle_midi (.noteOff 1)).params = testEngine.params ∧
    (midEngine (fun q => q) 3 testEngine 2).active_indices = testEngine.active_indices ∧
    (testEngine.process_buffer (fun q => q) 3 2).1.active_indices =
      testEngine.active_indices.filter
        (retainPred (midEngine (fun q => q) 3 testEngine 2).voices) ∧
    (retainPred [testVoice] 0 = true ↔
      (testVoice.opening = true ∨ (0.0001 : ℚ) < testVoice.valve_aperature)) :=
  C6_note_off_and_lazy_compaction testEngine 1 0 (by norm_num) (fun q => q) 3 2
    [testVoice] testVoice 0 rfl

/-- C7: the active-index set of a freshly constructed engine has no
duplicates, every event preserves that, a note-on for an already-present
key is a no-op on the set (so handling the same note-on twice does not
duplicate it), and after any event sequence from construction the set still
contains each key at most once. -/
theorem C7_active_set_no_duplicates (freqOf : ℕ → ℚ) (sr : ℚ)
    (es : List MidiMessage) (e : RosedaleEngine) (m : MidiMessage) (k vel : ℕ)
    (h : e.active_indices.Nodup) (hk : k ∈ e.active_indices) :
    (RosedaleEngine.new freqOf sr).active_indices.Nodup ∧
    (e.handle_midi m).active_indices.Nodup ∧
    (e.handle_midi (.noteOn k vel)).active_indices = e.active_indices ∧
    ((e.handle_midi (.noteOn k vel)).handle_midi (.noteOn k vel)).active_indices =
      (e.handle_midi (.noteOn k vel)).active_indices ∧
    (es.foldl RosedaleEngine.handle_midi (RosedaleEngine.new freqOf sr)).active_indices.Nodup := by
  refine ⟨List.nodup_nil, handle_midi_nodup e m h, handle_midi_mem_noop e k vel hk,
    ?_, foldl_handle_midi_nodup es _ List.nodup_nil⟩
  exact handle_midi_mem_noop _ k vel (by rw [handle_midi_mem_noop e k vel hk]; exact hk)

/-- Witness for C7 on a concrete engine whose active set is `[0]`. -/
theorem C7_active_set_no_duplicates_witness :
    (RosedaleEngine.new (fun _ => (440 : ℚ)) 48000).active_indices.Nodup ∧
    (testEngine.handle_midi .other).active_indices.Nodup ∧
    (testEngine.handle_midi (.noteOn 0 100)).active_indices = testEngine.active_indices ∧
    ((testEngine.handle_midi (.noteOn 0 100)).handle_midi (.noteOn 0 100)).active_indices =
      (testEngine.handle_midi (.noteOn 0 100)).active_indices ∧
    (([MidiMessage.noteOn 5 10, MidiMessage.noteOff 5].foldl RosedaleEngine.handle_midi
      (RosedaleEngine.new (fun _ => (440 : ℚ)) 48000)).active_indices).Nodup :=
  C7_active_set_no_duplicates (fun _ => (440 : ℚ)) 48000
    [MidiMessage.noteOn 5 10, MidiMessage.noteOff 5] testEngine .other 0 100
    (by simp [testEngine]) (by simp [testEngine])

/-- Lemma: `handle_midi` commutes with replacing the tuning multiplier. -/
theorem handle_midi_setTuning (e : RosedaleEngine) (t : ℚ) (m : MidiMessage) :
    (setTuning e t).handle_midi m = setTuning (e.handle_midi m) t := by
  cases m with
  | noteOn note vel =>
    simp only [RosedaleEngine.handle_midi, setTuning]
    split_ifs <;> rfl
  | noteOff note => rfl
  | other => rfl

/-- Lemma: `frameStep` commutes with replacing the tuning multiplier. -/
theorem frameStep_setTuning (alpha dt t : ℚ) (e : RosedaleEngine) :
    frameStep alpha dt (setTuning e t) =
      (setTuning (frameStep alpha dt e).1 t, (frameStep alpha dt e).2) := rfl

/-- The frame loop commutes with replacing the tuning multiplier. -/
theorem runFrames_setTuning (tanhQ : ℚ → ℚ) (alpha dt t : ℚ) (n : ℕ) (e : RosedaleEngine) :
    runFrames tanhQ alpha dt n (setTuning e t) =
      (setTuning (runFrames tanhQ alpha dt n e).1 t,
       (runFrames tanhQ alpha dt n e).2) := by
  induction n generalizing e with
  | zero => rfl
  | succ n ih => simp only [runFrames, frameStep_setTuning, ih]

/-- Lemma: `process_buffer` commutes with replacing the tuning multiplier. -/
theorem process_buffer_setTuning (tanhQ : ℚ → ℚ) (piq t : ℚ) (e : RosedaleEngine) (n : ℕ) :
    (setTuning e t).process_buffer tanhQ piq n =
      (setTuning ((e.process_buffer tanhQ piq n).1) t, (e.process_buffer tanhQ piq n).2) := by
  simp only [RosedaleEngine.process_buffer]
  rw [show (setTuning e t).sample_rate = e.sample_rate from rfl,
      show (setTuning e t).params.filter_cutoff = e.params.filter_cutoff from rfl,
      runFrames_setTuning]
  rfl

/-- C8: the `tuning_multiplier` parameter is never consulted — two engines
whose parameters differ only in it, fed the same event sequence and the
same render call, produce identical output samples and identical engine
states (up to that parameter field itself). -/
theorem C8_tuning_multiplier_unused (e : RosedaleEngine) (t : ℚ)
    (msgs : List MidiMessage) (tanhQ : ℚ → ℚ) (piq : ℚ) (n : ℕ) :
    ((msgs.foldl RosedaleEngine.handle_midi (setTuning e t)).process_buffer tanhQ piq n).2 =
      ((msgs.foldl RosedaleEngine.handle_midi e).process_buffer tanhQ piq n).2 ∧
    ((msgs.foldl RosedaleEngine.handle_midi (setTuning e t)).process_buffer tanhQ piq n).1 =
      setTuning ((msgs.foldl RosedaleEngine.handle_midi e).process_buffer tanhQ piq n).1 t := by
  have hf : ∀ (l : List MidiMessage) (e : RosedaleEngine),
      l.foldl RosedaleEngine.handle_midi (setTuning e t) =
        setTuning (l.foldl RosedaleEngine.handle_midi e) t := by
    intro l
    induction l with
    | nil => intro e; rfl
    | cons m l ih =>
      intro e
      simp only [List.foldl_cons, handle_midi_setTuning, ih]
  rw [hf, process_buffer_setTuning]
  exact ⟨rfl, rfl⟩

/-- Writing through an index never changes the length of the voice pool. -/
theorem listModify_length (l : List RosedaleVoiceState) (i : ℕ)
    (f : RosedaleVoiceState → RosedaleVoiceState) :
    (listModify l i f).length = l.length := by
  unfold listModify
  cases hk : l.get? i with
  | none => rfl
  | some a => simp

/-- Lemma: `handle_midi` never changes the length of the voice pool. -/
theorem handle_midi_voices_length (e : RosedaleEngine) (m : MidiMessage) :
    (e.handle_midi m).voices.length = e.voices.length := by
  cases m with
  | noteOn note vel =>
    simp only [RosedaleEngine.handle_midi]
    split_ifs <;> simp [listModify_length]
  | noteOff note => exact listModify_length _ _ _
  | other => rfl

/-- The per-voice loop never changes the length of the voice pool. -/
theorem voiceFold_foldl_length (params : RosedaleParams) (pressure : PlenumPressure)
    (alpha dt : ℚ) (l : List ℕ) :
    ∀ acc : List RosedaleVoiceState × ℚ,
      (l.foldl (voiceFold params pressure alpha dt) acc).1.length = acc.1.length := by
  induction l with
  | nil => intro acc; rfl
  | cons x l ih =>
    intro acc
    rw [List.foldl_cons, ih]
    unfold voiceFold
    cases hx : acc.1.get? x with
    | none => rfl
    | some v => simp

/-- One frame never changes the length of the voice pool. -/
theorem frameStep_voices_length (alpha dt : ℚ) (e : RosedaleEngine) :
    (frameStep alpha dt e).1.voices.length = e.voices.length := by
  simp only [frameStep]
  exact voiceFold_foldl_length _ _ _ _ _ (e.voices, 0.0)

/-- The frame loop never changes the length of the voice pool. -/
theorem runFrames_voices_length (tanhQ : ℚ → ℚ) (alpha dt : ℚ) (n : ℕ) (e : RosedaleEngine) :
    (runFrames tanhQ alpha dt n e).1.voices.length = e.voices.length := by
  induction n generalizing e with
  | zero => rfl
  | succ n ih =>
    simp only [runFrames]
    rw [ih, frameStep_voices_length]

/-- C9: the engine has no failure modes: keys 0..127 index within the
128-entry voice pool, event handling and rendering preserve the pool's
length and never add active indices (so every `voices[i]` access through
the active set stays in bounds), and each divisor in the signal path —
the valve-opening denominator, the spring back-pressure denominator, the
filter-coefficient denominator, the sample rate and the velocity scale
127.0 — is nonzero under the §3 parameter invariants. -/
theorem C9_no_failure_modes (freqOf : ℕ → ℚ) (sr : ℚ) (e : RosedaleEngine)
    (m : MidiMessage) (note vel i ib n : ℕ) (tanhQ : ℚ → ℚ)
    (a p c dtq piq srq : ℚ)
    (hnote : note < 128)
    (him : i ∈ (e.handle_midi (.noteOn note vel)).active_indices)
    (hib : ib ∈ (e.process_buffer tanhQ piq n).1.active_indices)
    (ha0 : 0 ≤ a) (ha1 : a ≤ 1) (hp : 0 ≤ p) (hc : 0 < c) (hdt : 0 < dtq)
    (hpi : 0 < piq) (hsr : 0 < srq) :
    note < (RosedaleEngine.new freqOf sr).voices.length ∧
    (e.handle_midi m).voices.length = e.voices.length ∧
    (i ∈ e.active_indices ∨ i = note) ∧
    (e.process_buffer tanhQ piq n).1.voices.length = e.voices.length ∧
    ib ∈ e.active_indices ∧
    SLOW_OPEN - a * (SLOW_OPEN - FAST_OPEN) ≠ 0 ∧
    (1.0 : ℚ) + (0.875 * p) ≠ 0 ∧
    (1.0 : ℚ) + 2.0 * piq * c * dtq ≠ 0 ∧
    srq ≠ 0 ∧ (127.0 : ℚ) ≠ 0 := by
  refine ⟨by simpa [RosedaleEngine.new] using hnote,
    handle_midi_voices_length e m, ?_, ?_, ?_, ?_, ?_, ?_, hsr.ne', by norm_num⟩
  · simp only [RosedaleEngine.handle_midi] at him
    split_ifs at him with hv hmem
    · exact Or.inl him
    · have him' : i ∈ e.active_indices ++ [note] := him
      rcases List.mem_append.1 him' with h | h
      · exact Or.inl h
      · exact Or.inr (List.mem_singleton.1 h)
    · exact Or.inl him
  · simp only [RosedaleEngine.process_buffer]
    exact runFrames_voices_length _ _ _ n e
  · rw [show (e.process_buffer tanhQ piq n).1.active_indices =
        (midEngine tanhQ piq e n).active_indices.filter
          (retainPred (midEngine tanhQ piq e n).voices) from rfl,
      midEngine_active] at hib
    exact (List.mem_filter.1 hib).1
  · have h : (0 : ℚ) < SLOW_OPEN - a * (SLOW_OPEN - FAST_OPEN) := by
      simp only [SLOW_OPEN, FAST_OPEN]
      nlinarith
    exact h.ne'
  · have h : (0 : ℚ) ≤ 0.875 * p := mul_nonneg (by norm_num) hp
    have h' : (0 : ℚ) < 1.0 + (0.875 * p) := by linarith
    exact h'.ne'
  · have h : (0 : ℚ) < 2.0 * piq * c * dtq :=
      mul_pos (mul_pos (mul_pos (by norm_num) hpi) hc) hdt
    have h' : (0 : ℚ) < 1.0 + 2.0 * piq * c * dtq := by linarith
    exact h'.ne'

/-- Witness for C9 on a concrete engine and concrete in-range values. -/
theorem C9_no_failure_modes_witness :
    (0 : ℕ) < (RosedaleEngine.new (fun _ => (440 : ℚ)) 48000).voices.length ∧
    (testEngine.handle_midi .other).voices.length = testEngine.voices.length ∧
    ((0 : ℕ) ∈ testEngine.active_indices ∨ (0 : ℕ) = 0) ∧
    (testEngine.process_buffer (fun q => q) 3 0).1.voices.length = testEngine.voices.length ∧
    (0 : ℕ) ∈ testEngine.active_indices ∧
    SLOW_OPEN - (1/2 : ℚ) * (SLOW_OPEN - FAST_OPEN) ≠ 0 ∧
    (1.0 : ℚ) + (0.875 * 1) ≠ 0 ∧
    (1.0 : ℚ) + 2.0 * 3 * 1500 * (1/48000) ≠ 0 ∧
    (48000 : ℚ) ≠ 0 ∧ (127.0 : ℚ) ≠ 0 :=
  C9_no_failure_modes (fun _ => (440 : ℚ)) 48000 testEngine .other 0 0 0 0 0
    (fun q => q) (1/2) 1 1500 (1/48000) 3 48000
    (by norm_num)
    (by norm_num [RosedaleEngine.handle_midi, testEngine])
    (by simp [RosedaleEngine.process_buffer, runFrames, retainPred, testEngine, testVoice])
    (by norm_num) (by norm_num) (by norm_num) (by norm_num) (by norm_num)
    (by norm_num) (by norm_num)
